import Mathlib

/-!
Verification of the whisper library adapter (speech-to-text service).

This file embeds the algorithmic core of
`src/infrastructure/whisper/library_adapter.py` and `src/core/config.py`
into Lean and proves or refutes the specification claims about it.

Python floats are modelled as rationals (`ℚ`); all inputs appearing in the
claims are exactly representable, and the adapter's arithmetic
(additions, subtractions, `min`, comparisons) is exact on them.
-/

namespace STT

/-- A chunk window, as a `(start_seconds, end_seconds)` pair
(`Chunk` in the data model). -/
abbrev Window := ℚ × ℚ

/-- Constant `MIN_CHUNK_DURATION = 2.0` from `src/core/constants.py`. -/
def minChunkDuration : ℚ := 2

/-- Python's two-argument `min`, written as an `if` so that it is
kernel-computable on `ℚ` (equal to Lean's `min`, see `pymin_eq_min`). -/
def pymin (a b : ℚ) : ℚ := if a ≤ b then a else b

/-- Result of the boundary computation of `_split_audio`: either a window
list, or the `TranscriptionError("Too many chunks calculated, possible
infinite loop")` raised by the runaway guard. -/
inductive SplitOutcome where
  | windows (ws : List Window)
  | tooManyChunks
deriving DecidableEq

/-- Embedding of the boundary-computation `while` loop of `_split_audio`
(`library_adapter.py` lines 431-456).  `fuel` bounds the number of loop
iterations; the loop body appends one chunk per iteration and raises the
runaway guard (`SplitOutcome.tooManyChunks`) as soon as more than 1000
chunks have been collected, so 1002 units of fuel always suffice
(`chunkLoop_total` below) and the `none` (fuel exhausted) case is
unreachable from the entry point `splitAudioWindows`. -/
def chunkLoop (D L O : ℚ) : Nat → ℚ → List Window → Option SplitOutcome
  | 0, _, _ => none
  | fuel + 1, start, acc =>
    if start < D then
      if D ≤ pymin (start + L) D then
        some (SplitOutcome.windows (acc ++ [(start, pymin (start + L) D)]))
      else if pymin (start + L) D - O ≤ start then
        some (SplitOutcome.windows (acc ++ [(start, pymin (start + L) D)]))
      else if 1000 < (acc ++ [(start, pymin (start + L) D)]).length then
        some SplitOutcome.tooManyChunks
      else
        chunkLoop D L O fuel (pymin (start + L) D - O)
          (acc ++ [(start, pymin (start + L) D)])
    else some (SplitOutcome.windows acc)

/-- Embedding of the short-final-chunk merge of `_split_audio`
(`library_adapter.py` lines 459-471), phrased on the reversed list:
if more than one chunk exists and the final chunk is shorter than
`MIN_CHUNK_DURATION`, the previous chunk's end is extended to the final
chunk's end and the final chunk is dropped. -/
def mergeShortFinalRev : List Window → List Window
  | lastC :: prevC :: rest =>
    if lastC.2 - lastC.1 < minChunkDuration then (prevC.1, lastC.2) :: rest
    else lastC :: prevC :: rest
  | l => l

/-- The short-final-chunk merge on the list in its original order. -/
def mergeShortFinal (cs : List Window) : List Window :=
  (mergeShortFinalRev cs.reverse).reverse

/-- Applies window post-processing to a successful split outcome. -/
def SplitOutcome.onWindows (f : List Window → List Window) : SplitOutcome → SplitOutcome
  | .windows ws => .windows (f ws)
  | .tooManyChunks => .tooManyChunks

/-- The full window-boundary computation of `_split_audio`: the boundary
loop followed by the short-final-chunk merge.  `some (.windows ws)` means
the code computes the window list `ws`; `some .tooManyChunks` means it
raises the runaway-guard `TranscriptionError`. -/
def splitAudioWindows (D L O : ℚ) : Option SplitOutcome :=
  (chunkLoop D L O 1002 0 []).map (SplitOutcome.onWindows mergeShortFinal)

/-- Reference window-boundary algorithm, written from the spec's words
("windows start at 0, each window is `[start, min(start+L, D)]`, the loop
stops when a window's end reaches `D`, otherwise the next start is
`end − O`").  `RefChunks D L O start raw` holds when `raw` is the window
list the reference algorithm generates from `start`. -/
inductive RefChunks (D L O : ℚ) : ℚ → List Window → Prop where
  | stop (start : ℚ) (h : D ≤ start + L) : RefChunks D L O start [(start, D)]
  | step (start : ℚ) (rest : List Window) (h : start + L < D)
      (hrec : RefChunks D L O (start + L - O) rest) :
      RefChunks D L O start ((start, start + L) :: rest)

/-- Reference short-final-window merge, written from the spec's words
("if the final window is shorter than the 2-second minimum and more than
one window exists, the previous window's end is extended to the final
window's end and the final window is discarded"). -/
def refMergeShortFinal (cs : List Window) : List Window :=
  if 2 ≤ cs.length ∧ (cs.getLastD (0, 0)).2 - (cs.getLastD (0, 0)).1 < minChunkDuration then
    cs.dropLast.dropLast ++ [((cs.dropLast.getLastD (0, 0)).1, (cs.getLastD (0, 0)).2)]
  else cs

/-- `ws` is the window list produced by the reference algorithm of the
claim: the boundary generation from start `0` followed by the reference
short-final-window merge. -/
def RefWindows (D L O : ℚ) (ws : List Window) : Prop :=
  ∃ raw, RefChunks D L O 0 raw ∧ ws = refMergeShortFinal raw

/-- A Python `str` modelled as its character list (so that the whitespace
operations of the merge are structurally computable). -/
abbrev PyStr := List Char

/-- Whitespace test used for Python's `str.strip` and `str.split`. -/
def isWsChar (c : Char) : Bool := c.isWhitespace

/-- Python's `str.strip()`: drop leading and trailing whitespace. -/
def pyStrip (s : PyStr) : PyStr :=
  ((s.dropWhile isWsChar).reverse.dropWhile isWsChar).reverse

/-- Python's `str.split()` (no argument): split on whitespace runs,
dropping empty fields. -/
def pySplit (s : PyStr) : List PyStr :=
  (List.splitOnP isWsChar s).filter (fun w => decide (w ≠ []))

/-- Python's `" ".join(parts)`. -/
def pyJoin (parts : List PyStr) : PyStr :=
  List.intercalate " ".data parts

/-- The `"[inaudible]"` sentinel placeholder recorded for failed chunks. -/
def inaudibleMark : PyStr := "[inaudible]".data

/-- Embedding of the overlap search of `_merge_chunks` (`library_adapter.py`
lines 570-581): with `k = min(5, len(prev_words), len(curr_words))`,
`prev_tail = prev_words[-k:]` and `curr_head = curr_words[:k]`, the Python
loop `for j in range(1, k+1)` keeps the last `j` with
`prev_tail[-j:] == curr_head[:j]`, i.e. the largest matching `j`, else 0. -/
def overlapWordCount (prevW currW : List PyStr) : Nat :=
  let k := min 5 (min prevW.length currW.length)
  let prevTail := prevW.drop (prevW.length - k)
  let currHead := currW.take k
  (List.range k).foldl
    (fun acc i =>
      if prevTail.drop (prevTail.length - (i + 1)) = currHead.take (i + 1) then i + 1
      else acc) 0

/-- Embedding of one iteration of the merge loop of `_merge_chunks`
(`library_adapter.py` lines 556-588) acting on the reversed
`merged_parts` list (the Python code reads `merged_parts[-1]` and
appends; `merged_parts` is nonempty throughout, so `headD` never takes
its default in reachable states). -/
def mergeStep (revParts : List PyStr) (current : PyStr) : List PyStr :=
  if current = [] then revParts
  else
    let prevW := pySplit (revParts.headD [])
    let currW := pySplit current
    if prevW.length < 2 ∨ currW.length < 2 then current :: revParts
    else
      let j := overlapWordCount prevW currW
      let current2 := if 0 < j then pyJoin (currW.drop j) else current
      if pyStrip current2 = [] then revParts else pyStrip current2 :: revParts

/-- Embedding of `_merge_chunks` (`library_adapter.py` lines 527-594):
strip all chunk texts, drop empty and `"[inaudible]"` entries, return the
empty string when none remain and the unique entry verbatim when one
remains, else fold the merge loop over the remaining texts and join with
single spaces. -/
def mergeChunks (chunkTexts : List PyStr) : PyStr :=
  let valid := (chunkTexts.map pyStrip).filter
    (fun t => decide (t ≠ [] ∧ t ≠ inaudibleMark))
  match valid with
  | [] => []
  | [t] => t
  | t :: rest => pyJoin ((rest.foldl mergeStep [t]).reverse)

/-- The spec's overlap relation: the last `j` words of the accumulated
tail equal the first `j` words of the next text. -/
def specOverlapPred (tailW nextW : List PyStr) (j : Nat) : Prop :=
  tailW.drop (tailW.length - j) = nextW.take j

instance (tailW nextW : List PyStr) : DecidablePred (specOverlapPred tailW nextW) :=
  fun j => by unfold specOverlapPred; infer_instance

/-- Reference merge fold step, written from the spec's words: for the pair
(accumulated tail, next text), find the largest `j ≤ k` with the last `j`
tail words equal to the first `j` next words (`k = min(5, ...)`), drop
those `j` words from the next text before appending, skip overlap
detection when either side has fewer than 2 words, and keep only surviving
(nonempty) pieces. -/
def specStep (revPieces : List PyStr) (next : PyStr) : List PyStr :=
  match revPieces with
  | [] => [next]
  | tailPiece :: _ =>
    let tailW := pySplit tailPiece
    let nextW := pySplit next
    if tailW.length < 2 ∨ nextW.length < 2 then next :: revPieces
    else
      let j := Nat.findGreatest (specOverlapPred tailW nextW)
          (min 5 (min tailW.length nextW.length))
      let next2 := if j = 0 then next else pyJoin (nextW.drop j)
      if pyStrip next2 = [] then revPieces else pyStrip next2 :: revPieces

/-- Reference merge algorithm, written from the spec's words (drop empty
and sentinel texts; empty result when nothing remains; the single text
verbatim when one remains; otherwise fold left-to-right and join the
surviving pieces with single spaces). -/
def refMergeChunksSpec (chunkTexts : List PyStr) : PyStr :=
  let valid := (chunkTexts.map pyStrip).filter
    (fun t => decide (t ≠ [] ∧ t ≠ inaudibleMark))
  match valid with
  | [] => []
  | [t] => t
  | t :: rest => pyJoin ((rest.foldl specStep [t]).reverse)

/-- Python's `abs`, kernel-computable form (equal to `|·|`, see
`pyabs_eq_abs`). -/
def pyabs (x : ℚ) : ℚ := if x < 0 then -x else x

/-- Python's / numpy's two-argument max, kernel-computable form. -/
def pymax (a b : ℚ) : ℚ := if a ≤ b then b else a

/-- `np.abs(audio_data).max()`: the peak absolute amplitude.  Folding from
`0` is exact for nonempty buffers because every `|x|` is nonnegative (and
`_validate_audio` only reads the peak after its emptiness check). -/
def peakAmp (xs : List ℚ) : ℚ := (xs.map pyabs).foldl pymax 0

/-- The mean of the samples (`np.mean`). -/
def meanQ (xs : List ℚ) : ℚ := xs.sum / xs.length

/-- The population variance of the samples: `np.std(xs) ^ 2`.  `np.std` is
the square root of this quantity; since both sides of the code's
`std < 0.001` comparison are nonnegative, `std < t ↔ variance < t²`, which
is how the standard-deviation threshold is expressed below. -/
def varianceQ (xs : List ℚ) : ℚ :=
  ((xs.map (fun x => (x - meanQ xs) ^ 2)).sum) / xs.length

/-- Result of `_validate_audio` (`library_adapter.py` lines 596-624):
the `(is_valid, reason)` pair collapsed to its four observable outcomes. -/
inductive AudioCheck where
  | invalidEmpty
  | invalidSilent
  | invalidConstant
  | valid
deriving DecidableEq

/-- Embedding of `_validate_audio`: empty check first, then the peak
amplitude threshold `0.01`, then the standard-deviation threshold `0.001`
(expressed on squares: `std < 0.001 ↔ variance < 0.001²`). -/
def validateAudioContent (xs : List ℚ) : AudioCheck :=
  if xs.length = 0 then AudioCheck.invalidEmpty
  else if peakAmp xs < 1/100 then AudioCheck.invalidSilent
  else if varianceQ xs < (1/1000) ^ 2 then AudioCheck.invalidConstant
  else AudioCheck.valid

/-- Outcome of `_load_audio` (`library_adapter.py` lines 626-695) on an
already-decoded sample buffer. -/
inductive LoadOutcome where
  | raisedEmpty
  | loaded (samples : List ℚ)
deriving DecidableEq

/-- Embedding of `_load_audio` after decoding: an empty buffer raises
`TranscriptionError("Audio file is empty or has zero duration")`; the
validation verdict of `_validate_audio` is computed and logged only (the
code comments announce "Return empty audio data to signal skip" but no
return or branch follows); the buffer is normalised when its peak exceeds
1; the (possibly normalised) buffer is returned in every non-empty case. -/
def loadAudioData (samples : List ℚ) : LoadOutcome :=
  if samples.length = 0 then LoadOutcome.raisedEmpty
  else if 1 < peakAmp samples then
    LoadOutcome.loaded (samples.map (fun x => x / peakAmp samples))
  else LoadOutcome.loaded samples

/-- Control-flow outcome of `_transcribe_direct` (lines 342-346). -/
inductive DirectOutcome where
  | raisedEmptyError
  | inferenceInvoked (samples : List ℚ)
deriving DecidableEq

/-- Embedding of `_transcribe_direct`: it loads the audio and passes the
result unconditionally to `_call_whisper_full` (the native inference
entry point); there is no validation-based early return. -/
def transcribeDirectFlow (samples : List ℚ) : DirectOutcome :=
  match loadAudioData samples with
  | LoadOutcome.raisedEmpty => DirectOutcome.raisedEmptyError
  | LoadOutcome.loaded s => DirectOutcome.inferenceInvoked s

/-- Which of the two transcription paths `transcribe` selects. -/
inductive TransPath where
  | direct
  | chunked
deriving DecidableEq

/-- Embedding of the path selection in `transcribe` (`library_adapter.py`
lines 247-267): the duration probe either returns a duration (`some d`)
or raises the probe error (`none` — the `except TranscriptionError`
handler catches it, logs, and leaves `duration = 0.0`); the chunked path
is taken only when chunking is enabled and the duration exceeds the
configured chunk duration. -/
def transcribeDispatch (chunkEnabled : Bool) (chunkDuration : ℚ)
    (probe : Option ℚ) : TransPath :=
  let duration : ℚ := match probe with
    | some d => d
    | none => 0
  if chunkEnabled = true ∧ chunkDuration < duration then TransPath.chunked
  else TransPath.direct

/-- The standard output of a completed ffprobe run, as consumed by
`get_audio_duration` (`library_adapter.py` lines 274-335): stripped-empty
output, output that fails JSON/float parsing, or parsed output carrying an
optional format-level duration and per-stream optional durations. -/
inductive FfprobeStdout where
  | empty
  | unparsable
  | parsed (fmtDuration : Option ℚ) (streamDurations : List (Option ℚ))
deriving DecidableEq

/-- The duration extractable from a completed run: the format duration
when present, else the first stream duration (the code's loop over
`data["streams"]` takes the first stream with a `duration` key). -/
def probedDuration : FfprobeStdout → Option ℚ
  | FfprobeStdout.parsed (some d) _ => some d
  | FfprobeStdout.parsed none streams => streams.findSome? id
  | _ => none

/-- Result of `get_audio_duration`: a duration in seconds, or the raised
`TranscriptionError` (the spec's `DurationProbeError`). -/
inductive ProbeResult where
  | ok (seconds : ℚ)
  | raisedProbeError
deriving DecidableEq

/-- Embedding of `get_audio_duration` on a completed prober run: error on
non-zero exit code; error on stripped-empty stdout; error on unparsable
stdout (JSON decode or float conversion failure); error when the parsed
output carries no duration at all; otherwise the probed duration. -/
def getAudioDuration (returncode : ℤ) (out : FfprobeStdout) : ProbeResult :=
  if returncode ≠ 0 then ProbeResult.raisedProbeError
  else match out with
    | FfprobeStdout.empty => ProbeResult.raisedProbeError
    | FfprobeStdout.unparsable => ProbeResult.raisedProbeError
    | FfprobeStdout.parsed fmt streams =>
      match fmt with
      | some d => ProbeResult.ok d
      | none =>
        match streams.findSome? id with
        | some d => ProbeResult.ok d
        | none => ProbeResult.raisedProbeError

/-- The configuration validator's outcome: `validate_chunk_overlap`
(`src/core/config.py` lines 60-73) either returns `True` or raises
`ValueError`. -/
inductive ConfigCheck where
  | accepted
  | raisedValueError
deriving DecidableEq

/-- Embedding of `Settings.validate_chunk_overlap`: raises exactly when
`whisper_chunk_overlap >= whisper_chunk_duration / 2` (Python float
division of the integer fields). -/
def validateChunkOverlap (chunkDuration chunkOverlap : ℤ) : ConfigCheck :=
  if (chunkDuration : ℚ) / 2 ≤ (chunkOverlap : ℚ) then ConfigCheck.raisedValueError
  else ConfigCheck.accepted

/-- The chunking fields of `Settings` (`src/core/config.py` lines 50-58). -/
structure ChunkSettings where
  chunkDuration : ℤ
  chunkOverlap : ℤ
deriving DecidableEq

/-- Embedding of `Settings` construction for the chunking fields: they are
plain pydantic fields with no field or model validators, so construction
stores any integer values unchecked and always succeeds.
`validate_chunk_overlap` is an ordinary method that no production code
path invokes (its only callers in the repository are the tests). -/
def settingsInit (d o : ℤ) : Option ChunkSettings := some ⟨d, o⟩

/-- The liveness-relevant state of the adapter: whether the library handle
(`self.lib`) and the context handle (`self.ctx`) are non-null. -/
structure GuardState where
  lib : Bool
  ctx : Bool
deriving DecidableEq

/-- Embedding of `_check_context_health` (`library_adapter.py` lines
697-722): healthy iff the context handle and the library handle are both
non-null (the third check, `bool(self.ctx)`, repeats the first). -/
def checkContextHealth (s : GuardState) : Bool := s.ctx && s.lib

/-- Embedding of `_reinitialize_context` (lines 724-752): a best-effort
`whisper_free` of the old context whose failure is caught and logged
(`freeFails` therefore has no effect on the outcome), then `self.ctx =
None`, then re-initialization from the same model path.
Re-initialization succeeds iff the library handle is live and the native
initializer succeeds (`initOk`); on failure `ModelInitError` is raised
with the context still null.  Returns the resulting state and whether it
succeeded. -/
def reinitializeContext (freeFails initOk : Bool) (s : GuardState) : GuardState × Bool :=
  if s.lib && initOk then ({ lib := s.lib, ctx := true }, true)
  else ({ lib := s.lib, ctx := false }, false)

/-- Observable outcome of one guarded call. -/
inductive GuardCall where
  | workRan
  | raisedContextRecoveryError
deriving DecidableEq

/-- Embedding of `_call_whisper_full` (lines 754-773): under the lock,
check context health; if unhealthy, attempt recovery exactly once,
mapping a recovery failure to `TranscriptionError("Context recovery
failed: ...")` (the spec's `ContextRecoveryError`); otherwise run the
caller's work.  The `Nat` component counts the recovery attempts made by
this call. -/
def callWhisperFull (freeFails initOk : Bool) (s : GuardState) :
    GuardCall × GuardState × Nat :=
  if checkContextHealth s then (GuardCall.workRan, s, 0)
  else if (reinitializeContext freeFails initOk s).2 then
    (GuardCall.workRan, (reinitializeContext freeFails initOk s).1, 1)
  else
    (GuardCall.raisedContextRecoveryError, (reinitializeContext freeFails initOk s).1, 1)

theorem pymin_eq_min (a b : ℚ) : pymin a b = min a b := by
  rw [pymin, min_def]

/-- Giving the boundary loop more fuel preserves any completed result. -/
theorem chunkLoop_mono (D L O : ℚ) : ∀ fuel fuel' : Nat, fuel ≤ fuel' →
    ∀ (start : ℚ) (acc : List Window) (r : SplitOutcome),
      chunkLoop D L O fuel start acc = some r →
      chunkLoop D L O fuel' start acc = some r := by
  intro fuel
  induction fuel with
  | zero => intro fuel' h start acc r hr; simp [chunkLoop] at hr
  | succ n ih =>
    intro fuel' h start acc r hr
    obtain ⟨m, hm⟩ := Nat.exists_eq_add_of_le h
    have hm2 : fuel' = (n + m) + 1 := by omega
    subst hm2
    rw [chunkLoop] at hr ⊢
    by_cases h1 : start < D
    · rw [if_pos h1] at hr ⊢
      by_cases h2 : D ≤ pymin (start + L) D
      · rw [if_pos h2] at hr ⊢; exact hr
      · rw [if_neg h2] at hr ⊢
        by_cases h3 : pymin (start + L) D - O ≤ start
        · rw [if_pos h3] at hr ⊢; exact hr
        · rw [if_neg h3] at hr ⊢
          by_cases h4 : 1000 < (acc ++ [(start, pymin (start + L) D)]).length
          · rw [if_pos h4] at hr ⊢; exact hr
          · rw [if_neg h4] at hr ⊢
            exact ih _ (Nat.le_add_right n m) _ _ _ hr
    · rw [if_neg h1] at hr ⊢; exact hr

/-- Concrete evaluation: the boundary computation for a 90 s file with
30 s chunks and 3 s overlap. -/
theorem splitAudio_90_30_3 : splitAudioWindows 90 30 3 =
    some (SplitOutcome.windows [(0, 30), (27, 57), (54, 84), (81, 90)]) := by
  have h : chunkLoop 90 30 3 6 0 [] =
      some (SplitOutcome.windows [(0, 30), (27, 57), (54, 84), (81, 90)]) := by
    norm_num [chunkLoop, pymin]
  rw [splitAudioWindows, chunkLoop_mono 90 30 3 6 1002 (by norm_num) _ _ _ h]
  norm_num [SplitOutcome.onWindows, mergeShortFinal, mergeShortFinalRev, minChunkDuration]

/-- Concrete evaluation: a 20 s file with 30 s chunks gives one window. -/
theorem splitAudio_20_30_3 : splitAudioWindows 20 30 3 =
    some (SplitOutcome.windows [(0, 20)]) := by
  have h : chunkLoop 20 30 3 2 0 [] = some (SplitOutcome.windows [(0, 20)]) := by
    norm_num [chunkLoop, pymin]
  rw [splitAudioWindows, chunkLoop_mono 20 30 3 2 1002 (by norm_num) _ _ _ h]
  norm_num [SplitOutcome.onWindows, mergeShortFinal, mergeShortFinalRev, minChunkDuration]

/-- Concrete evaluation: with overlap equal to the chunk length the loop
breaks at the non-advancing boundary and returns the single window. -/
theorem splitAudio_90_30_30 : splitAudioWindows 90 30 30 =
    some (SplitOutcome.windows [(0, 30)]) := by
  have h : chunkLoop 90 30 30 2 0 [] = some (SplitOutcome.windows [(0, 30)]) := by
    norm_num [chunkLoop, pymin]
  rw [splitAudioWindows, chunkLoop_mono 90 30 30 2 1002 (by norm_num) _ _ _ h]
  norm_num [SplitOutcome.onWindows, mergeShortFinal, mergeShortFinalRev, minChunkDuration]

/-- Concrete evaluation: an overlap of 20 s against 30 s chunks (an invalid
configuration per the spec) is still processed by the boundary loop. -/
theorem splitAudio_90_30_20 : splitAudioWindows 90 30 20 =
    some (SplitOutcome.windows
      [(0, 30), (10, 40), (20, 50), (30, 60), (40, 70), (50, 80), (60, 90)]) := by
  have h : chunkLoop 90 30 20 8 0 [] =
      some (SplitOutcome.windows
        [(0, 30), (10, 40), (20, 50), (30, 60), (40, 70), (50, 80), (60, 90)]) := by
    norm_num [chunkLoop, pymin]
  rw [splitAudioWindows, chunkLoop_mono 90 30 20 8 1002 (by norm_num) _ _ _ h]
  norm_num [SplitOutcome.onWindows, mergeShortFinal, mergeShortFinalRev, minChunkDuration]

/-- The spec-side and code-side short-final merges agree. -/
theorem refMergeShortFinal_eq (cs : List Window) :
    refMergeShortFinal cs = mergeShortFinal cs := by
  rw [mergeShortFinal]
  rcases hrev : cs.reverse with _ | ⟨x, t1⟩
  · have hcs : cs = [] := by simpa using congrArg List.reverse hrev
    subst hcs
    simp [refMergeShortFinal, mergeShortFinalRev]
  · rcases t1 with _ | ⟨y, t⟩
    · have hcs : cs = [x] := by simpa using congrArg List.reverse hrev
      subst hcs
      simp [refMergeShortFinal, mergeShortFinalRev]
    · have hcs : cs = (t.reverse ++ [y]) ++ [x] := by
        have h := congrArg List.reverse hrev
        simpa [List.append_assoc] using h
      rw [hcs, mergeShortFinalRev.eq_def]
      simp only [List.reverse_append, List.reverse_cons, List.reverse_reverse,
        List.nil_append, List.cons_append, List.append_nil]
      rw [refMergeShortFinal]
      simp only [List.dropLast_concat, List.getLastD_concat, List.length_append,
        List.length_cons, List.length_reverse]
      by_cases hlt : x.2 - x.1 < minChunkDuration
      · rw [if_pos (by constructor <;> [omega; exact hlt])]
        simp [hlt]
      · rw [if_neg (by rintro ⟨-, h2⟩; exact hlt h2)]
        simp [hlt]

/-- If the code's minimum is below its right argument it equals the left. -/
theorem pymin_eq_left_of_lt {a b : ℚ} (h : pymin a b < b) : pymin a b = a := by
  by_cases hab : a ≤ b
  · rw [pymin, if_pos hab]
  · rw [pymin, if_neg hab] at h
    exact absurd h (lt_irrefl b)

/-- Core refinement: whenever the boundary loop of `_split_audio` completes
with a window list (for a nonnegative overlap strictly below the chunk
length), that list extends the accumulator with windows generated by the
reference algorithm from the current start. -/
theorem chunkLoop_refines (D L O : ℚ) (hO : 0 ≤ O) (hOL : O < L) :
    ∀ (fuel : Nat) (start : ℚ) (acc ws : List Window), start < D →
      chunkLoop D L O fuel start acc = some (SplitOutcome.windows ws) →
      ∃ tail, ws = acc ++ tail ∧ RefChunks D L O start tail := by
  intro fuel
  induction fuel with
  | zero => intro start acc ws h1 hr; simp [chunkLoop] at hr
  | succ n ih =>
    intro start acc ws h1 hr
    rw [chunkLoop, if_pos h1] at hr
    by_cases h2 : D ≤ pymin (start + L) D
    · rw [if_pos h2] at hr
      have hmin : pymin (start + L) D = D := by
        rw [pymin_eq_min] at h2 ⊢
        exact le_antisymm (min_le_right _ _) h2
      have hDle : D ≤ start + L := by
        calc D ≤ pymin (start + L) D := h2
        _ ≤ start + L := by rw [pymin_eq_min]; exact min_le_left _ _
      have hws : ws = acc ++ [(start, D)] := by
        rw [hmin] at hr
        simpa using hr.symm
      exact ⟨[(start, D)], hws, RefChunks.stop start hDle⟩
    · rw [if_neg h2] at hr
      have hlt : pymin (start + L) D < D := not_le.mp h2
      have hmin : pymin (start + L) D = start + L := pymin_eq_left_of_lt hlt
      have hSL : start + L < D := by rw [hmin] at hlt; exact hlt
      by_cases h3 : pymin (start + L) D - O ≤ start
      · exfalso
        rw [hmin] at h3
        linarith
      · rw [if_neg h3] at hr
        by_cases h4 : 1000 < (acc ++ [(start, pymin (start + L) D)]).length
        · rw [if_pos h4] at hr
          simp at hr
        · rw [if_neg h4] at hr
          have hstart' : pymin (start + L) D - O < D := by
            rw [hmin]
            linarith
          obtain ⟨tail, htail, href⟩ := ih _ _ _ hstart' hr
          refine ⟨(start, start + L) :: tail, ?_, ?_⟩
          · rw [htail, hmin]
            simp
          · refine RefChunks.step start tail hSL ?_
            rw [hmin] at href
            exact href

/-- C1 (amended): for a positive duration and a nonnegative overlap below
the chunk length, whenever `_split_audio`'s window computation returns a
window list (the runaway guard does not fire), that list is exactly the
one described by the spec's reference algorithm (boundary generation from
0 followed by the short-final-window merge). -/
theorem split_audio_matches_reference (D L O : ℚ) (ws : List Window)
    (hD : 0 < D) (hO : 0 ≤ O) (hOL : O < L)
    (h : splitAudioWindows D L O = some (SplitOutcome.windows ws)) :
    RefWindows D L O ws := by
  rw [splitAudioWindows] at h
  cases hc : chunkLoop D L O 1002 0 [] with
  | none => rw [hc] at h; simp at h
  | some r =>
    rw [hc] at h
    cases r with
    | tooManyChunks => simp [SplitOutcome.onWindows] at h
    | windows raw =>
      have hws : ws = mergeShortFinal raw := by
        simpa [SplitOutcome.onWindows] using h.symm
      obtain ⟨tail, htail, href⟩ := chunkLoop_refines D L O hO hOL 1002 0 [] raw hD hc
      have hraw : raw = tail := by simpa using htail
      refine ⟨raw, ?_, ?_⟩
      · rw [hraw]; exact href
      · rw [refMergeShortFinal_eq]; exact hws

/-- C1 witness: the two concrete examples named by the claim, obtained by
applying `split_audio_matches_reference` to the evaluated code. -/
theorem split_audio_matches_reference_witness :
    RefWindows 90 30 3 [(0, 30), (27, 57), (54, 84), (81, 90)] ∧
    RefWindows 20 30 3 [(0, 20)] := by
  constructor
  · exact split_audio_matches_reference 90 30 3 _
      (by norm_num) (by norm_num) (by norm_num) splitAudio_90_30_3
  · exact split_audio_matches_reference 20 30 3 _
      (by norm_num) (by norm_num) (by norm_num) splitAudio_20_30_3

/-- With overlap equal to the chunk length, the reference algorithm never
leaves start `0`, so it generates no finite window list at all. -/
theorem no_refChunks_90_30_30 : ∀ (s : ℚ) (raw : List Window),
    RefChunks 90 30 30 s raw → s = 0 → False := by
  intro s raw h
  induction h with
  | stop start h => intro hs; rw [hs] at h; norm_num at h
  | step start rest h hrec ih => intro hs; apply ih; rw [hs]; norm_num

/-- C1 counterexample: at duration 90, chunk length 30 and overlap 30 the
code computes the window list `[(0, 30)]` (the loop breaks when the next
start fails to advance), while the claim's reference algorithm — which has
no non-advancing break — generates no window list at all, so the claimed
equality fails for this choice of L and O. -/
theorem split_audio_reference_counterexample :
    splitAudioWindows 90 30 30 = some (SplitOutcome.windows [(0, 30)]) ∧
    ∀ ws, ¬ RefWindows 90 30 30 ws := by
  refine ⟨splitAudio_90_30_30, ?_⟩
  rintro ws ⟨raw, hraw, -⟩
  exact no_refChunks_90_30_30 0 raw hraw rfl

/-- The boundary loop always completes within the provided fuel whenever
the fuel exceeds the remaining capacity of the 1000-chunk runaway guard:
every iteration appends one chunk, and once more than 1000 chunks have
accumulated the guard fires instead of recursing. -/
theorem chunkLoop_total (D L O : ℚ) : ∀ (fuel : Nat) (start : ℚ) (acc : List Window),
    1001 - acc.length < fuel → chunkLoop D L O fuel start acc ≠ none := by
  intro fuel
  induction fuel with
  | zero => intro start acc h; exact absurd h (by omega)
  | succ n ih =>
    intro start acc h
    rw [chunkLoop]
    by_cases h1 : start < D
    · rw [if_pos h1]
      by_cases h2 : D ≤ pymin (start + L) D
      · rw [if_pos h2]; simp
      · rw [if_neg h2]
        by_cases h3 : pymin (start + L) D - O ≤ start
        · rw [if_pos h3]; simp
        · rw [if_neg h3]
          by_cases h4 : 1000 < (acc ++ [(start, pymin (start + L) D)]).length
          · rw [if_pos h4]; simp
          · rw [if_neg h4]
            apply ih
            simp only [List.length_append, List.length_cons, List.length_nil] at h4 ⊢
            omega
    · rw [if_neg h1]; simp

/-- C10: the window-boundary loop of `_split_audio` terminates for every
duration, chunk length and overlap (first conjunct: the fuelled embedding
never exhausts its fuel); when the computed next start fails to advance
past the current start the loop breaks and returns the windows computed so
far (second conjunct); and the 1000-window runaway guard can fire only
when boundaries advance — with overlap at least the chunk length, no run
of the loop ever raises the guard (third conjunct). -/
theorem chunk_boundary_loop_terminates :
    (∀ D L O : ℚ, splitAudioWindows D L O ≠ none) ∧
    (∀ (D L O : ℚ) (fuel : Nat) (start : ℚ) (acc : List Window),
      start < D → pymin (start + L) D < D → pymin (start + L) D - O ≤ start →
      chunkLoop D L O (fuel + 1) start acc =
        some (SplitOutcome.windows (acc ++ [(start, pymin (start + L) D)]))) ∧
    (∀ D L O : ℚ, L ≤ O → ∀ (fuel : Nat) (start : ℚ) (acc : List Window),
      chunkLoop D L O fuel start acc ≠ some SplitOutcome.tooManyChunks) := by
  refine ⟨?_, ?_, ?_⟩
  · intro D L O h
    rw [splitAudioWindows] at h
    cases hc : chunkLoop D L O 1002 0 [] with
    | none => exact chunkLoop_total D L O 1002 0 [] (by simp) hc
    | some r => rw [hc] at h; simp at h
  · intro D L O fuel start acc h1 h2 h3
    rw [chunkLoop, if_pos h1, if_neg (not_le.mpr h2), if_pos h3]
  · intro D L O hLO fuel start acc
    cases fuel with
    | zero => simp [chunkLoop]
    | succ n =>
      rw [chunkLoop]
      by_cases h1 : start < D
      · rw [if_pos h1]
        by_cases h2 : D ≤ pymin (start + L) D
        · rw [if_pos h2]; simp
        · rw [if_neg h2]
          have hmin : pymin (start + L) D = start + L :=
            pymin_eq_left_of_lt (not_le.mp h2)
          have h3 : pymin (start + L) D - O ≤ start := by
            rw [hmin]
            linarith
          rw [if_pos h3]
          simp
      · rw [if_neg h1]; simp

/-- C10 witness: concrete instances of the three conjuncts — the
non-advancing break at duration 90, chunk length 30, overlap 30, and the
impossibility of the runaway guard there. -/
theorem chunk_boundary_loop_terminates_witness :
    splitAudioWindows 90 30 30 ≠ none ∧
    chunkLoop 90 30 30 1001 0 [] = some (SplitOutcome.windows [(0, 30)]) ∧
    chunkLoop 90 30 30 5 0 [] ≠ some SplitOutcome.tooManyChunks := by
  refine ⟨chunk_boundary_loop_terminates.1 90 30 30, ?_, ?_⟩
  · have h := chunk_boundary_loop_terminates.2.1 90 30 30 1000 0 []
      (by norm_num) (by norm_num [pymin]) (by norm_num [pymin])
    simpa [pymin] using h
  · exact chunk_boundary_loop_terminates.2.2 90 30 30 (by norm_num) 5 0 []

/-- A left fold that keeps the last matching `j + 1` over `range k`
computes the greatest `j ≤ k` satisfying the predicate. -/
theorem foldl_range_findGreatest (P : ℕ → Prop) [DecidablePred P] :
    ∀ k : ℕ, (List.range k).foldl (fun acc i => if P (i + 1) then i + 1 else acc) 0
      = Nat.findGreatest P k := by
  intro k
  induction k with
  | zero => rfl
  | succ n ih =>
    rw [List.range_succ, List.foldl_append, ih, List.foldl_cons, List.foldl_nil,
      Nat.findGreatest_succ]

/-- The code's overlap search (on the truncated `prev_tail`/`curr_head`
slices) computes the spec's greatest overlap on the full word lists. -/
theorem overlapWordCount_eq (prevW currW : List PyStr) :
    overlapWordCount prevW currW =
      Nat.findGreatest (specOverlapPred prevW currW)
        (min 5 (min prevW.length currW.length)) := by
  simp only [overlapWordCount]
  set k := min 5 (min prevW.length currW.length) with hk
  have hkp : k ≤ prevW.length := le_trans (min_le_right _ _) (min_le_left _ _)
  have hstep : ∀ (acc : ℕ), ∀ i ∈ List.range k,
      (if (prevW.drop (prevW.length - k)).drop
            ((prevW.drop (prevW.length - k)).length - (i + 1)) =
          (currW.take k).take (i + 1) then i + 1 else acc)
      = (if specOverlapPred prevW currW (i + 1) then i + 1 else acc) := by
    intro acc i hi
    have hik : i + 1 ≤ k := by simpa using List.mem_range.mp hi
    have hlen : (prevW.drop (prevW.length - k)).length = k := by
      rw [List.length_drop]
      omega
    have hdrop : (prevW.drop (prevW.length - k)).drop
        ((prevW.drop (prevW.length - k)).length - (i + 1)) =
        prevW.drop (prevW.length - (i + 1)) := by
      rw [hlen, List.drop_drop]
      congr 1
      omega
    have htake : (currW.take k).take (i + 1) = currW.take (i + 1) := by
      rw [List.take_take, min_eq_left hik]
    rw [hdrop, htake]
    rfl
  exact (List.foldl_ext _ _ 0 hstep).trans (foldl_range_findGreatest _ k)

/-- On reachable states (nonempty reversed parts, nonempty current text),
the code's merge step agrees with the spec's. -/
theorem mergeStep_eq_specStep (revParts : List PyStr) (current : PyStr)
    (h1 : revParts ≠ []) (h2 : current ≠ []) :
    mergeStep revParts current = specStep revParts current := by
  cases revParts with
  | nil => exact absurd rfl h1
  | cons p ps =>
    simp only [mergeStep, specStep, if_neg h2, List.headD_cons, overlapWordCount_eq]
    by_cases hlen : (pySplit p).length < 2 ∨ (pySplit current).length < 2
    · rw [if_pos hlen, if_pos hlen]
    · rw [if_neg hlen, if_neg hlen]
      rcases Nat.eq_zero_or_pos (Nat.findGreatest (specOverlapPred (pySplit p) (pySplit current))
          (min 5 (min (pySplit p).length (pySplit current).length))) with h0 | h0
      · rw [h0]
        norm_num
      · rw [if_pos h0, if_neg (Nat.pos_iff_ne_zero.mp h0)]

/-- The merge step never empties a nonempty parts list. -/
theorem mergeStep_ne_nil (revParts : List PyStr) (current : PyStr) (h : revParts ≠ []) :
    mergeStep revParts current ≠ [] := by
  simp only [mergeStep]
  split_ifs <;> simp_all

/-- The code's merge fold agrees with the spec's on reachable inputs. -/
theorem foldl_mergeStep_eq : ∀ (l : List PyStr) (acc : List PyStr), acc ≠ [] →
    (∀ x ∈ l, x ≠ []) → l.foldl mergeStep acc = l.foldl specStep acc := by
  intro l
  induction l with
  | nil => intro acc _ _; rfl
  | cons x xs ih =>
    intro acc hacc hl
    have hx : x ≠ [] := hl x (List.mem_cons_self x xs)
    rw [List.foldl_cons, List.foldl_cons, mergeStep_eq_specStep acc x hacc hx]
    have hne : specStep acc x ≠ [] := by
      rw [← mergeStep_eq_specStep acc x hacc hx]
      exact mergeStep_ne_nil acc x hacc
    exact ih _ hne (fun y hy => hl y (List.mem_cons_of_mem x hy))

/-- C2: the merge operation of `_merge_chunks` equals the reference
algorithm of the spec on every list of per-window texts, and in
particular merging `["Hello", "[inaudible]", "world"]` yields
`"Hello world"`. -/
theorem merge_chunks_matches_reference :
    (∀ chunkTexts : List PyStr, mergeChunks chunkTexts = refMergeChunksSpec chunkTexts) ∧
    mergeChunks ["Hello".data, "[inaudible]".data, "world".data] = "Hello world".data := by
  constructor
  · intro chunkTexts
    have hval : ∀ x ∈ (chunkTexts.map pyStrip).filter
        (fun t => decide (t ≠ [] ∧ t ≠ inaudibleMark)), x ≠ [] := by
      intro x hx
      have h := List.of_mem_filter hx
      simp only [decide_eq_true_eq] at h
      exact h.1
    simp only [mergeChunks, refMergeChunksSpec]
    cases hv : (chunkTexts.map pyStrip).filter
        (fun t => decide (t ≠ [] ∧ t ≠ inaudibleMark)) with
    | nil => rfl
    | cons t rest =>
      cases rest with
      | nil => rfl
      | cons u rest2 =>
        have hmem : ∀ x ∈ u :: rest2, x ≠ [] := by
          intro x hx
          exact hval x (by rw [hv]; exact List.mem_cons_of_mem t hx)
        show pyJoin (((u :: rest2).foldl mergeStep [t]).reverse) =
          pyJoin (((u :: rest2).foldl specStep [t]).reverse)
        rw [foldl_mergeStep_eq (u :: rest2) [t] (by simp) hmem]
  · decide

theorem pyabs_eq_abs (x : ℚ) : pyabs x = |x| := by
  rw [pyabs]
  split_ifs with h
  · exact (abs_of_neg h).symm
  · exact (abs_of_nonneg (not_lt.mp h)).symm

theorem pymax_absorb_right (a b : ℚ) : pymax (pymax a b) b = pymax a b := by
  simp only [pymax]
  split_ifs <;> rfl

theorem foldl_pymax_replicate (n : ℕ) (a x : ℚ) :
    List.foldl pymax a (List.replicate n x) = if n = 0 then a else pymax a x := by
  induction n generalizing a with
  | zero => rfl
  | succ m ih =>
    rw [List.replicate_succ, List.foldl_cons, ih]
    cases m with
    | zero => simp
    | succ m2 => simp [pymax_absorb_right]

theorem validateAudioContent_replicate_const (n : ℕ) (c : ℚ) (hn : n ≠ 0)
    (hc : 1/100 ≤ |c|) :
    validateAudioContent (List.replicate n c) = AudioCheck.invalidConstant := by
  have hlen : (List.replicate n c).length = n := List.length_replicate n c
  have hpeak : peakAmp (List.replicate n c) = pymax 0 (pyabs c) := by
    rw [peakAmp, List.map_replicate, foldl_pymax_replicate, if_neg hn]
  have hpeak2 : ¬ peakAmp (List.replicate n c) < 1/100 := by
    rw [hpeak, pyabs_eq_abs, pymax]
    split_ifs with h
    · linarith
    · exact absurd (abs_nonneg c) h
  have hmean : meanQ (List.replicate n c) = c := by
    rw [meanQ, List.sum_replicate, hlen, nsmul_eq_mul]
    exact mul_div_cancel_left₀ c (Nat.cast_ne_zero.mpr hn)
  have hvar : varianceQ (List.replicate n c) = 0 := by
    rw [varianceQ, hmean, List.map_replicate]
    simp
  rw [validateAudioContent, if_neg (by rw [hlen]; exact hn), if_neg hpeak2,
    if_pos (by rw [hvar]; norm_num)]

theorem validateAudioContent_replicate_zero (n : ℕ) (hn : n ≠ 0) :
    validateAudioContent (List.replicate n (0 : ℚ)) = AudioCheck.invalidSilent := by
  have hlen : (List.replicate n (0:ℚ)).length = n := List.length_replicate n 0
  have hpeak : peakAmp (List.replicate n (0:ℚ)) = 0 := by
    rw [peakAmp, List.map_replicate, foldl_pymax_replicate, if_neg hn]
    norm_num [pyabs, pymax]
  rw [validateAudioContent, if_neg (by rw [hlen]; exact hn),
    if_pos (by rw [hpeak]; norm_num)]

/-- C5 (amended): the validation outcomes of `_validate_audio` are exactly
characterised by the empty / peak-amplitude / standard-deviation checks in
that order (the standard-deviation comparison `std < 0.001` is expressed
as `variance < 0.001²`); an all-zero buffer is invalid as silent; a buffer
of one repeated constant of magnitude at least the `0.01` silence
threshold is invalid as constant noise (a smaller nonzero constant is
caught by the earlier silence check instead, see the counterexample); and
the buffer `[1/2, -1/2]`, whose values lie in `[-0.5, 0.5]`, is valid. -/
theorem validate_audio_thresholds :
    (∀ xs : List ℚ, validateAudioContent xs = AudioCheck.invalidEmpty ↔ xs = []) ∧
    (∀ xs : List ℚ, xs ≠ [] →
      (validateAudioContent xs = AudioCheck.invalidSilent ↔ peakAmp xs < 1/100)) ∧
    (∀ xs : List ℚ, xs ≠ [] → ¬ peakAmp xs < 1/100 →
      (validateAudioContent xs = AudioCheck.invalidConstant ↔ varianceQ xs < (1/1000) ^ 2)) ∧
    (∀ xs : List ℚ, xs ≠ [] → ¬ peakAmp xs < 1/100 → ¬ varianceQ xs < (1/1000) ^ 2 →
      validateAudioContent xs = AudioCheck.valid) ∧
    (∀ n : ℕ, n ≠ 0 → validateAudioContent (List.replicate n (0 : ℚ)) = AudioCheck.invalidSilent) ∧
    (∀ (n : ℕ) (c : ℚ), n ≠ 0 → 1/100 ≤ |c| →
      validateAudioContent (List.replicate n c) = AudioCheck.invalidConstant) ∧
    validateAudioContent [1/2, -1/2] = AudioCheck.valid := by
  refine ⟨?_, ?_, ?_, ?_, validateAudioContent_replicate_zero,
    validateAudioContent_replicate_const, ?_⟩
  · intro xs
    rw [validateAudioContent]
    split_ifs with h1 h2 h3 <;> simp_all [List.length_eq_zero]
  · intro xs hne
    rw [validateAudioContent,
      if_neg (fun h => hne (List.length_eq_zero.mp h))]
    split_ifs with h2 h3 <;> simp_all
  · intro xs hne hpeak
    rw [validateAudioContent,
      if_neg (fun h => hne (List.length_eq_zero.mp h)), if_neg hpeak]
    split_ifs with h3 <;> simp_all
  · intro xs hne hpeak hvar
    rw [validateAudioContent,
      if_neg (fun h => hne (List.length_eq_zero.mp h)), if_neg hpeak, if_neg hvar]
  · norm_num [validateAudioContent, peakAmp, pyabs, pymax, meanQ, varianceQ]

/-- C5 witness: the characterisation applied at concrete buffers — three
zeros are silent, and four copies of `1/2` are constant noise. -/
theorem validate_audio_thresholds_witness :
    validateAudioContent (List.replicate 3 (0 : ℚ)) = AudioCheck.invalidSilent ∧
    validateAudioContent (List.replicate 4 ((1 : ℚ)/2)) = AudioCheck.invalidConstant := by
  constructor
  · exact validate_audio_thresholds.2.2.2.2.1 3 (by norm_num)
  · refine validate_audio_thresholds.2.2.2.2.2.1 4 (1/2) (by norm_num) ?_
    rw [abs_of_nonneg (by norm_num : (0:ℚ) ≤ 1/2)]
    norm_num

/-- C5 counterexample: the repeated nonzero constant `1/200 = 0.005` has
peak amplitude below the `0.01` silence threshold, so `_validate_audio`
reports it as silent/low-volume, not as constant noise — refuting the
claim's "a buffer of one repeated nonzero constant is Invalid as constant
noise" in general. -/
theorem validate_constant_counterexample :
    validateAudioContent (List.replicate 2 ((1 : ℚ)/200)) = AudioCheck.invalidSilent ∧
    ((1 : ℚ)/200 ≠ 0) ∧
    AudioCheck.invalidSilent ≠ AudioCheck.invalidConstant := by
  refine ⟨?_, by norm_num, by simp⟩
  have hpeak : peakAmp (List.replicate 2 ((1:ℚ)/200)) = 1/200 := by
    rw [peakAmp, List.map_replicate, foldl_pymax_replicate, if_neg (by norm_num)]
    norm_num [pyabs, pymax]
  rw [validateAudioContent, if_neg (by norm_num), if_pos (by rw [hpeak]; norm_num)]

/-- C3 evaluation at the failing input: a silent (all-zero, nonempty)
buffer is judged invalid by audio preflight, yet the direct path still
invokes the native inference entry point on it, and an empty buffer
raises `TranscriptionError` rather than returning the empty string —
contradicting the claimed return-empty-without-inference behaviour. -/
theorem invalid_audio_still_reaches_inference :
    validateAudioContent (List.replicate 3 (0 : ℚ)) = AudioCheck.invalidSilent ∧
    transcribeDirectFlow (List.replicate 3 (0 : ℚ)) =
      DirectOutcome.inferenceInvoked (List.replicate 3 (0 : ℚ)) ∧
    transcribeDirectFlow [] = DirectOutcome.raisedEmptyError := by
  refine ⟨validateAudioContent_replicate_zero 3 (by norm_num), ?_, rfl⟩
  have hpeak : peakAmp (List.replicate 3 (0 : ℚ)) = 0 := by
    rw [peakAmp, List.map_replicate, foldl_pymax_replicate, if_neg (by norm_num)]
    norm_num [pyabs, pymax]
  have hload : loadAudioData (List.replicate 3 (0 : ℚ)) =
      LoadOutcome.loaded (List.replicate 3 0) := by
    rw [loadAudioData, if_neg (by norm_num), if_neg (by rw [hpeak]; norm_num)]
  simp only [transcribeDirectFlow, hload]

/-- C7: when the duration probe raises, `transcribe` does not propagate
the error; the duration is treated as unknown (0.0, i.e. short) and the
direct path runs, for any chunk-enabled flag and any nonnegative
configured chunk duration. -/
theorem probe_failure_degrades_to_direct (chunkEnabled : Bool) (chunkDuration : ℚ)
    (h : 0 ≤ chunkDuration) :
    transcribeDispatch chunkEnabled chunkDuration none = TransPath.direct := by
  simp only [transcribeDispatch]
  rw [if_neg (fun hc => absurd hc.2 (not_lt.mpr h))]

/-- C7 witness: with the default configuration (chunking enabled, 30 s
chunks), a failed probe selects the direct path. -/
theorem probe_failure_degrades_to_direct_witness :
    transcribeDispatch true 30 none = TransPath.direct :=
  probe_failure_degrades_to_direct true 30 (by norm_num)

/-- C8: on a completed prober run, `get_audio_duration` raises exactly
when the exit code is non-zero, the output is empty, or no duration can
be parsed from the output; otherwise it returns the probed duration. -/
theorem probe_duration_failure_characterisation :
    (∀ (rc : ℤ) (out : FfprobeStdout),
      getAudioDuration rc out = ProbeResult.raisedProbeError ↔
        (rc ≠ 0 ∨ out = FfprobeStdout.empty ∨ probedDuration out = none)) ∧
    (∀ (rc : ℤ) (out : FfprobeStdout) (d : ℚ), rc = 0 → probedDuration out = some d →
      getAudioDuration rc out = ProbeResult.ok d) := by
  constructor
  · intro rc out
    by_cases hrc : rc = 0
    · subst hrc
      cases out with
      | empty => simp [getAudioDuration, probedDuration]
      | unparsable => simp [getAudioDuration, probedDuration]
      | parsed fmt streams =>
        cases fmt with
        | some d => simp [getAudioDuration, probedDuration]
        | none =>
          cases hs : streams.findSome? id with
          | none => simp [getAudioDuration, probedDuration, hs]
          | some d => simp [getAudioDuration, probedDuration, hs]
    · simp [getAudioDuration, hrc]
  · intro rc out d hrc hdur
    subst hrc
    cases out with
    | empty => simp [probedDuration] at hdur
    | unparsable => simp [probedDuration] at hdur
    | parsed fmt streams =>
      cases fmt with
      | some d2 =>
        simp only [probedDuration, Option.some.injEq] at hdur
        simp [getAudioDuration, hdur]
      | none =>
        simp only [probedDuration] at hdur
        simp [getAudioDuration, hdur]

/-- C8 witness: a clean run whose parsed output has a format duration of
42 s returns it. -/
theorem probe_duration_failure_characterisation_witness :
    getAudioDuration 0 (FfprobeStdout.parsed (some 42) []) = ProbeResult.ok 42 :=
  probe_duration_failure_characterisation.2 0 (FfprobeStdout.parsed (some 42) []) 42 rfl rfl

/-- C6 evaluation at the failing input: the validator, when invoked,
rejects exactly the configurations with `O ≥ L/2` (first conjunct), but
constructing `Settings` with the invalid pair `L = 30, O = 20` succeeds
without any error (second conjunct), the validator would have rejected it
(third conjunct), and chunked transcription with that configuration
proceeds to compute windows normally (fourth conjunct) — so the invalid
configuration is not rejected before transcription runs. -/
theorem chunk_overlap_validator_not_invoked :
    (∀ d o : ℤ, validateChunkOverlap d o = ConfigCheck.raisedValueError ↔
      (d : ℚ) / 2 ≤ (o : ℚ)) ∧
    settingsInit 30 20 = some ⟨30, 20⟩ ∧
    validateChunkOverlap 30 20 = ConfigCheck.raisedValueError ∧
    splitAudioWindows 90 30 20 = some (SplitOutcome.windows
      [(0, 30), (10, 40), (20, 50), (30, 60), (40, 70), (50, 80), (60, 90)]) := by
  refine ⟨?_, rfl, ?_, splitAudio_90_30_20⟩
  · intro d o
    rw [validateChunkOverlap]
    split_ifs with h <;> simp_all
  · rw [validateChunkOverlap, if_pos (by norm_num)]

/-- C4: the context-guard recovery protocol.  (1) A healthy call runs the
work with no recovery attempt and unchanged state.  (2) An unhealthy call
makes exactly one recovery attempt.  (3) A failure of the best-effort
free is not propagated: it does not change the recovery outcome.  (4) If
the library handle is live and re-initialization succeeds, the call runs
the work after recovery and every subsequent call proceeds with no
further recovery attempts (until health degrades again).  (5) If recovery
fails, the call raises the recovery error and leaves the context null, so
the next call attempts recovery again. -/
theorem context_guard_recovery_protocol :
    (∀ (freeFails initOk : Bool) (s : GuardState), checkContextHealth s = true →
      callWhisperFull freeFails initOk s = (GuardCall.workRan, s, 0)) ∧
    (∀ (freeFails initOk : Bool) (s : GuardState), checkContextHealth s = false →
      (callWhisperFull freeFails initOk s).2.2 = 1) ∧
    (∀ (initOk : Bool) (s : GuardState),
      reinitializeContext true initOk s = reinitializeContext false initOk s) ∧
    (∀ (freeFails : Bool) (s : GuardState), checkContextHealth s = false → s.lib = true →
      callWhisperFull freeFails true s = (GuardCall.workRan, ⟨true, true⟩, 1) ∧
      (∀ freeFails2 initOk2 : Bool,
        callWhisperFull freeFails2 initOk2 ⟨true, true⟩ = (GuardCall.workRan, ⟨true, true⟩, 0))) ∧
    (∀ (freeFails initOk : Bool) (s : GuardState), checkContextHealth s = false →
      (s.lib && initOk) = false →
      callWhisperFull freeFails initOk s =
        (GuardCall.raisedContextRecoveryError, ⟨s.lib, false⟩, 1) ∧
      (∀ freeFails2 initOk2 : Bool,
        (callWhisperFull freeFails2 initOk2 ⟨s.lib, false⟩).2.2 = 1)) := by
  refine ⟨?_, ?_, ?_, ?_, ?_⟩
  · intro freeFails initOk s h
    rw [callWhisperFull, if_pos h]
  · intro freeFails initOk s h
    simp only [callWhisperFull, h, Bool.false_eq_true, if_false]
    split_ifs <;> rfl
  · intro initOk s
    rw [reinitializeContext, reinitializeContext]
  · intro freeFails s h hlib
    have hr : reinitializeContext freeFails true s = (⟨true, true⟩, true) := by
      simp [reinitializeContext, hlib]
    constructor
    · simp [callWhisperFull, h, hr]
    · intro freeFails2 initOk2
      simp [callWhisperFull, checkContextHealth]
  · intro freeFails initOk s h hfail
    have hr : reinitializeContext freeFails initOk s = (⟨s.lib, false⟩, false) := by
      simp [reinitializeContext, hfail]
    constructor
    · simp [callWhisperFull, h, hr]
    · intro freeFails2 initOk2
      have hh : checkContextHealth ⟨s.lib, false⟩ = false := by
        simp [checkContextHealth]
      simp only [callWhisperFull, hh, Bool.false_eq_true, if_false]
      split_ifs <;> rfl

/-- C4 witness: with a live library and a dead context, a call with a
succeeding initializer recovers once and runs the work, and a call with a
failing initializer raises the recovery error while leaving the state
retryable. -/
theorem context_guard_recovery_protocol_witness :
    callWhisperFull false true ⟨true, false⟩ = (GuardCall.workRan, ⟨true, true⟩, 1) ∧
    callWhisperFull false false ⟨true, false⟩ =
      (GuardCall.raisedContextRecoveryError, ⟨true, false⟩, 1) := by
  constructor
  · exact (context_guard_recovery_protocol.2.2.2.1 false ⟨true, false⟩ rfl rfl).1
  · exact (context_guard_recovery_protocol.2.2.2.2 false false ⟨true, false⟩ rfl rfl).1

end STT
